import Mathlib

/-!
Shallow embedding of the tb6612fng motor-driver crate (src/lib.rs).

The Rust code drives a motor through three fallible capabilities: two
digital output pins (IN1, IN2) and one PWM duty-cycle output.  We model a
`Motor` as an explicit state record (pin levels, duty percentage, and the
stored `current_drive_command`) and model each fallible capability call by
an injected outcome (`Option` of an error value) supplied per `drive`
invocation in a `DriveBehavior`.  Every attempted capability call is logged
in an event trace, so ordering and abort-at-first-failure properties are
expressible.  A failed pin write leaves the modelled pin level unchanged.
-/

namespace Tb6612

/-- Rust `enum DriveCommand` (lib.rs lines 53-62).  Speeds are `u8` in
Rust; we embed them as `Nat` (reachable states only ever store values
≤ 100, and validation compares against 100 exactly as the source does). -/
inductive DriveCommand where
  | Forward (speed : Nat)
  | Backward (speed : Nat)
  | Brake
  | Stop
deriving DecidableEq

/-- Rust `enum MotorError<IN1Error, IN2Error, PWMError>` (lib.rs 31-40). -/
inductive MotorError (A B P : Type) where
  | InvalidSpeed
  | In1Error (e : A)
  | In2Error (e : B)
  | PwmError (e : P)
deriving DecidableEq

/-- The observable state of a `Motor` (lib.rs 204-209): the electrical
levels of its two direction pins (`true` = high), the duty-cycle
percentage last written to the PWM output, and the stored
`current_drive_command` field. -/
structure MotorState where
  in1 : Bool
  in2 : Bool
  duty : Nat
  current_drive_command : DriveCommand
deriving DecidableEq

/-- Failure injection for one `drive` call: the outcome of each capability
write, should that write be attempted (`none` = the write succeeds). -/
structure DriveBehavior (A B P : Type) where
  in1Res : Option A
  in2Res : Option B
  pwmRes : Option P
deriving DecidableEq

/-- One attempted capability call, with the level or percentage passed and
the outcome returned. -/
inductive WriteEvent (A B P : Type) where
  | wIn1 (level : Bool) (res : Option A)
  | wIn2 (level : Bool) (res : Option B)
  | wPwm (percent : Nat) (res : Option P)
deriving DecidableEq

/-- The outcome of one `drive` call: `result = none` models `Ok(())`,
`result = some e` models `Err(e)`; `state` is the motor state after the
call (Rust's `&mut self` persists even on error); `events` is the ordered
trace of attempted capability calls. -/
structure DriveResult (A B P : Type) where
  result : Option (MotorError A B P)
  state : MotorState
  events : List (WriteEvent A B P)
deriving DecidableEq

/-- Speed extraction in `Motor::drive` (lib.rs 281-284):
`Forward(s) | Backward(s) => s, _ => 0`. -/
def extractSpeed : DriveCommand → Nat
  | .Forward s => s
  | .Backward s => s
  | .Brake => 0
  | .Stop => 0

/-- The pin-pattern table of the `match drive_command` block in
`Motor::drive` (lib.rs 290-307), as (IN1 level, IN2 level) with
`true` = high: Forward → (high, low), Backward → (low, high),
Brake → (high, high), Stop → (low, low). -/
def pinPattern : DriveCommand → Bool × Bool
  | .Forward _ => (true, false)
  | .Backward _ => (false, true)
  | .Brake => (true, true)
  | .Stop => (false, false)

/-- `Motor::drive` (lib.rs 277-319): extract the speed, reject with
`InvalidSpeed` if `speed > 100` before touching any pin, then write IN1,
then IN2 (levels from the pattern table), then the duty cycle, aborting at
the first failure with the pin-specific error; only when all three writes
succeed is `current_drive_command` updated. -/
def drive (m : MotorState) (cmd : DriveCommand) (b : DriveBehavior A B P) :
    DriveResult A B P :=
  let speed := extractSpeed cmd
  if speed > 100 then
    { result := some .InvalidSpeed, state := m, events := [] }
  else
    let l1 := (pinPattern cmd).1
    let l2 := (pinPattern cmd).2
    match b.in1Res with
    | some e =>
        { result := some (.In1Error e), state := m
          events := [.wIn1 l1 (some e)] }
    | none =>
      let m1 : MotorState := { m with in1 := l1 }
      match b.in2Res with
      | some e =>
          { result := some (.In2Error e), state := m1
            events := [.wIn1 l1 none, .wIn2 l2 (some e)] }
      | none =>
        let m2 : MotorState := { m1 with in2 := l2 }
        match b.pwmRes with
        | some e =>
            { result := some (.PwmError e), state := m2
              events := [.wIn1 l1 none, .wIn2 l2 none, .wPwm speed (some e)] }
        | none =>
            { result := none
              state := { m2 with duty := speed, current_drive_command := cmd }
              events := [.wIn1 l1 none, .wIn2 l2 none, .wPwm speed none] }

/-- `Motor::new` (lib.rs 251-266): build the motor with
`current_drive_command = Stop` and immediately `drive(Stop)`; on error the
partially constructed motor is discarded and the error returned.  The
initial electrical pin levels and duty value are arbitrary hardware state,
so they are parameters.  The event trace of the initial drive is returned
alongside. -/
def Motor.new (i1 i2 : Bool) (d : Nat) (b : DriveBehavior A B P) :
    Except (MotorError A B P) MotorState × List (WriteEvent A B P) :=
  let m0 : MotorState :=
    { in1 := i1, in2 := i2, duty := d, current_drive_command := .Stop }
  let r := drive m0 .Stop b
  match r.result with
  | some e => (.error e, r.events)
  | none => (.ok r.state, r.events)

/-- The Rust cast `s as i8` for `s : u8`: two's-complement reinterpretation
of the low 8 bits. -/
def u8AsI8 (s : Nat) : Int :=
  if s % 256 < 128 then ((s % 256 : Nat) : Int) else ((s % 256 : Nat) : Int) - 256

/-- `Motor::current_speed` (lib.rs 332-339): a pure read of the stored
command, `Forward(s) → s as i8`, `Backward(s) → -(s as i8)`,
`Brake`/`Stop` → 0. -/
def current_speed (m : MotorState) : Int :=
  match m.current_drive_command with
  | .Forward s => u8AsI8 s
  | .Backward s => - u8AsI8 s
  | .Brake => 0
  | .Stop => 0

/-- Number of PWM capability calls in an event trace. -/
def countPwm : List (WriteEvent A B P) → Nat
  | [] => 0
  | .wPwm _ _ :: es => countPwm es + 1
  | _ :: es => countPwm es

/-- The Motor states reachable through the public interface: a successful
`Motor::new` from arbitrary initial hardware state, followed by any
sequence of `drive` calls with arbitrary injected capability outcomes
(Rust keeps the `&mut self` state even when `drive` returns an error). -/
inductive Reachable (A B P : Type) : MotorState → Prop where
  | init (i1 i2 : Bool) (d : Nat) (b : DriveBehavior A B P) (m : MotorState)
      (h : (Motor.new i1 i2 d b).1 = .ok m) : Reachable A B P m
  | step (m : MotorState) (cmd : DriveCommand) (b : DriveBehavior A B P)
      (h : Reachable A B P m) : Reachable A B P ((drive m cmd b).state)

/-- Rust `struct Tb6612fng` (lib.rs 70-77): two motors and the level of
the shared standby pin (`true` = high = standby disengaged). -/
structure Tb6612fngState where
  motor_a : MotorState
  motor_b : MotorState
  standby : Bool
deriving DecidableEq

/-- An attempted capability call made by the dual-motor controller: a
write on one of motor A's or motor B's capabilities, or a write of the
standby pin. -/
inductive ControllerEvent (A B P S : Type) where
  | motorA (e : WriteEvent A B P)
  | motorB (e : WriteEvent A B P)
  | wStandby (level : Bool) (res : Option S)
deriving DecidableEq

/-- The outcome of one standby operation: the returned `Result`
(`none` = `Ok(())`), the controller state after the call, and the trace of
attempted capability calls. -/
structure StandbyResult (A B P S : Type) where
  result : Option S
  state : Tb6612fngState
  events : List (ControllerEvent A B P S)
deriving DecidableEq

/-- `Tb6612fng::enable_standby` (lib.rs 170-172): the single call
`self.standby.set_low()`, with injected outcome `res`.  A failed write
leaves the modelled pin level unchanged. -/
def enable_standby (c : Tb6612fngState) (res : Option S) :
    StandbyResult A B P S :=
  match res with
  | some e => { result := some e, state := c, events := [.wStandby false (some e)] }
  | none =>
      { result := none, state := { c with standby := false }
        events := [.wStandby false none] }

/-- `Tb6612fng::disable_standby` (lib.rs 179-181): the single call
`self.standby.set_high()`, with injected outcome `res`. -/
def disable_standby (c : Tb6612fngState) (res : Option S) :
    StandbyResult A B P S :=
  match res with
  | some e => { result := some e, state := c, events := [.wStandby true (some e)] }
  | none =>
      { result := none, state := { c with standby := true }
        events := [.wStandby true none] }

/-! ## Helper lemmas -/

/-- Helper: case analysis on the stored command after one `drive` call:
either the field is unchanged, or the call fully succeeded and the field
holds the driven command, whose extracted speed passed validation. -/
theorem drive_command_cases (m : MotorState) (cmd : DriveCommand)
    (b : DriveBehavior A B P) :
    (drive m cmd b).state.current_drive_command = m.current_drive_command ∨
    ((drive m cmd b).result = none ∧
      (drive m cmd b).state.current_drive_command = cmd ∧
      extractSpeed cmd ≤ 100) := by
  by_cases hs : extractSpeed cmd > 100
  · left; simp [drive, hs]
  · cases h1 : b.in1Res <;> cases h2 : b.in2Res <;> cases h3 : b.pwmRes <;>
      simp [drive, hs, h1, h2, h3, Nat.le_of_not_lt hs]

/-- Helper: a successful `Motor::new` yields exactly the all-low,
zero-duty, `Stop` state. -/
theorem new_ok_state (i1 i2 : Bool) (d : Nat) (b : DriveBehavior A B P)
    (m : MotorState) (hok : (Motor.new i1 i2 d b).1 = .ok m) :
    m = ⟨false, false, 0, .Stop⟩ := by
  cases h1 : b.in1Res <;> cases h2 : b.in2Res <;> cases h3 : b.pwmRes <;>
    simp [Motor.new, drive, extractSpeed, pinPattern, h1, h2, h3] at hok
  exact hok.symm

/-- Helper: the command stored in a reachable state has speed ≤ 100. -/
theorem reachable_command_speed_le (m : MotorState)
    (h : Reachable A B P m) : extractSpeed m.current_drive_command ≤ 100 := by
  induction h with
  | init i1 i2 d b m hok =>
      rw [new_ok_state i1 i2 d b m hok]
      simp [extractSpeed]
  | step m cmd b h ih =>
      rcases drive_command_cases m cmd b with hsame | ⟨-, hcmd, hle⟩
      · rw [hsame]; exact ih
      · rw [hcmd]; exact hle

/-- Helper: `drive` returns `Ok(())` exactly when validation passes and
all three injected capability outcomes are successes. -/
theorem drive_ok_iff (m : MotorState) (cmd : DriveCommand)
    (b : DriveBehavior A B P) :
    (drive m cmd b).result = none ↔
      (extractSpeed cmd ≤ 100 ∧ b.in1Res = none ∧ b.in2Res = none ∧
        b.pwmRes = none) := by
  by_cases hs : extractSpeed cmd > 100
  · simp [drive, hs, not_le_of_lt hs]
  · cases h1 : b.in1Res <;> cases h2 : b.in2Res <;> cases h3 : b.pwmRes <;>
      simp [drive, hs, h1, h2, h3, Nat.le_of_not_lt hs]

/-- Helper: the state and event trace of a successful `drive` call: pins
at the pattern levels, duty at the extracted speed, the command recorded,
and the three successful writes in order IN1, IN2, PWM. -/
theorem drive_ok_state (m : MotorState) (cmd : DriveCommand)
    (b : DriveBehavior A B P) (hok : (drive m cmd b).result = none) :
    (drive m cmd b).state =
      ⟨(pinPattern cmd).1, (pinPattern cmd).2, extractSpeed cmd, cmd⟩ ∧
    (drive m cmd b).events =
      [.wIn1 (pinPattern cmd).1 none, .wIn2 (pinPattern cmd).2 none,
        .wPwm (extractSpeed cmd) none] := by
  rcases (drive_ok_iff m cmd b).mp hok with ⟨hs, h1, h2, h3⟩
  simp [drive, Nat.not_lt_of_le hs, h1, h2, h3]

/-- Helper: the two's-complement reinterpretation of a `u8` below 128 is
the identity. -/
theorem u8AsI8_small (s : Nat) (hs : s < 128) : u8AsI8 s = (s : Int) := by
  unfold u8AsI8
  rw [Nat.mod_eq_of_lt (lt_trans hs (by norm_num))]
  simp [hs]

/-! ## Claim theorems -/

/-- Claim C1: for every drive command whose extracted speed is at most
100, a successful `Motor::drive` call writes the pin-pattern of the
command's variant — Forward: IN1 high, IN2 low; Backward: IN1 low, IN2
high; Brake: IN1 high, IN2 high; Stop: IN1 low, IN2 low — and sets the
duty-cycle output to the extracted speed percent (0 for Brake and Stop),
regardless of the prior state. -/
theorem drive_success_applies_pattern (m : MotorState) (cmd : DriveCommand)
    (b : DriveBehavior A B P) (hs : extractSpeed cmd ≤ 100)
    (hok : (drive m cmd b).result = none) :
    (drive m cmd b).state.duty = extractSpeed cmd ∧
    (∀ s, cmd = .Forward s →
      (drive m cmd b).state.in1 = true ∧ (drive m cmd b).state.in2 = false ∧
      (drive m cmd b).state.duty = s) ∧
    (∀ s, cmd = .Backward s →
      (drive m cmd b).state.in1 = false ∧ (drive m cmd b).state.in2 = true ∧
      (drive m cmd b).state.duty = s) ∧
    (cmd = .Brake →
      (drive m cmd b).state.in1 = true ∧ (drive m cmd b).state.in2 = true ∧
      (drive m cmd b).state.duty = 0) ∧
    (cmd = .Stop →
      (drive m cmd b).state.in1 = false ∧ (drive m cmd b).state.in2 = false ∧
      (drive m cmd b).state.duty = 0) := by
  rcases drive_ok_state m cmd b hok with ⟨hstate, -⟩
  rw [hstate]
  cases cmd <;> simp [pinPattern, extractSpeed]

/-- Witness for C1 at `Forward 100` from the freshly constructed state. -/
theorem drive_success_applies_pattern_witness :
    extractSpeed (.Forward 100) ≤ 100 ∧
    (drive ⟨false, false, 0, .Stop⟩ (.Forward 100)
      (⟨none, none, none⟩ : DriveBehavior Unit Unit Unit)).result = none ∧
    (drive ⟨false, false, 0, .Stop⟩ (.Forward 100)
      (⟨none, none, none⟩ : DriveBehavior Unit Unit Unit)).state.duty =
      extractSpeed (.Forward 100) :=
  ⟨by decide, by decide,
    (drive_success_applies_pattern ⟨false, false, 0, .Stop⟩ (.Forward 100)
      ⟨none, none, none⟩ (by decide) (by decide)).1⟩

/-- Claim C2: for every speed s > 100 and direction Forward/Backward,
`Motor::drive` returns `InvalidSpeed` before touching any pin: no
capability write is attempted and the state (pins, duty, stored command,
hence both accessors) is unchanged. -/
theorem drive_invalid_speed_rejected (m : MotorState) (s : Nat)
    (hs : 100 < s) (b : DriveBehavior A B P) :
    drive m (.Forward s) b =
      { result := some .InvalidSpeed, state := m, events := [] } ∧
    drive m (.Backward s) b =
      { result := some .InvalidSpeed, state := m, events := [] } := by
  constructor <;> simp [drive, extractSpeed, hs]

/-- Witness for C2 at speed 101 against a Forward-50 state. -/
theorem drive_invalid_speed_rejected_witness :
    100 < 101 ∧
    drive ⟨true, false, 50, .Forward 50⟩ (.Forward 101)
      (⟨none, none, none⟩ : DriveBehavior Unit Unit Unit) =
      { result := some .InvalidSpeed,
        state := ⟨true, false, 50, .Forward 50⟩, events := [] } :=
  ⟨by decide,
    (drive_invalid_speed_rejected ⟨true, false, 50, .Forward 50⟩ 101
      (by decide) ⟨none, none, none⟩).1⟩

/-- Claim C3: `current_drive_command` is updated to the driven command
only when all three writes succeeded (the call returned `Ok`); on every
call that returns an error the field is unchanged. -/
theorem drive_records_command_only_on_success (m : MotorState)
    (cmd : DriveCommand) (b : DriveBehavior A B P) :
    ((drive m cmd b).result = none →
      ((drive m cmd b).state.current_drive_command = cmd ∧
        b.in1Res = none ∧ b.in2Res = none ∧ b.pwmRes = none)) ∧
    (∀ e, (drive m cmd b).result = some e →
      (drive m cmd b).state.current_drive_command =
        m.current_drive_command) := by
  constructor
  · intro hok
    rcases drive_ok_state m cmd b hok with ⟨hstate, -⟩
    rw [hstate]
    exact ⟨rfl, ((drive_ok_iff m cmd b).mp hok).2⟩
  · intro e he
    rcases drive_command_cases m cmd b with hsame | ⟨hok, -, -⟩
    · exact hsame
    · rw [hok] at he; simp at he

/-- Witness for C3: a successful `Brake` call records `Brake`. -/
theorem drive_records_command_only_on_success_witness :
    (drive ⟨false, false, 0, .Stop⟩ .Brake
      (⟨none, none, none⟩ : DriveBehavior Unit Unit Unit)).result = none ∧
    (drive ⟨false, false, 0, .Stop⟩ .Brake
      (⟨none, none, none⟩ : DriveBehavior Unit Unit Unit)).state.current_drive_command
      = .Brake :=
  ⟨by decide,
    ((drive_records_command_only_on_success ⟨false, false, 0, .Stop⟩ .Brake
      ⟨none, none, none⟩).1 (by decide)).1⟩

/-- Claim C4: in every validated `drive` call the writes occur in the
fixed order IN1, IN2, PWM, aborting at the first failure: on `In1Error`
only the failed IN1 attempt happened; on `In2Error` exactly the
successful IN1 write and the failed IN2 attempt happened (duty cycle
never written); on `PwmError` both pin writes succeeded first; on `Ok`
all three writes happened in order. -/
theorem drive_write_order_abort (m : MotorState) (cmd : DriveCommand)
    (b : DriveBehavior A B P) (hs : extractSpeed cmd ≤ 100) :
    (∀ e, (drive m cmd b).result = some (.In1Error e) →
      (drive m cmd b).events = [.wIn1 (pinPattern cmd).1 (some e)]) ∧
    (∀ e, (drive m cmd b).result = some (.In2Error e) →
      (drive m cmd b).events =
        [.wIn1 (pinPattern cmd).1 none, .wIn2 (pinPattern cmd).2 (some e)]) ∧
    (∀ e, (drive m cmd b).result = some (.PwmError e) →
      (drive m cmd b).events =
        [.wIn1 (pinPattern cmd).1 none, .wIn2 (pinPattern cmd).2 none,
          .wPwm (extractSpeed cmd) (some e)]) ∧
    ((drive m cmd b).result = none →
      (drive m cmd b).events =
        [.wIn1 (pinPattern cmd).1 none, .wIn2 (pinPattern cmd).2 none,
          .wPwm (extractSpeed cmd) none]) := by
  cases h1 : b.in1Res <;> cases h2 : b.in2Res <;> cases h3 : b.pwmRes <;>
    simp [drive, Nat.not_lt_of_le hs, h1, h2, h3]

/-- Witness for C4: an injected IN2 failure during `Forward 50` leaves
exactly the successful IN1-high write and the failed IN2 attempt. -/
theorem drive_write_order_abort_witness :
    extractSpeed (.Forward 50) ≤ 100 ∧
    (drive ⟨false, false, 0, .Stop⟩ (.Forward 50)
      (⟨none, some (), none⟩ : DriveBehavior Unit Unit Unit)).result =
      some (.In2Error ()) ∧
    (drive ⟨false, false, 0, .Stop⟩ (.Forward 50)
      (⟨none, some (), none⟩ : DriveBehavior Unit Unit Unit)).events =
      [.wIn1 true none, .wIn2 false (some ())] :=
  ⟨by decide, by decide,
    (drive_write_order_abort ⟨false, false, 0, .Stop⟩ (.Forward 50)
      ⟨none, some (), none⟩ (by decide)).2.1 () (by decide)⟩

/-- Claim C5: in every state reachable via the constructor and any
sequence of `drive` calls (with any outcomes), a stored `Forward s` or
`Backward s` command has s ≤ 100. -/
theorem reachable_speed_bounded (m : MotorState) (h : Reachable A B P m) :
    ∀ s, (m.current_drive_command = .Forward s ∨
          m.current_drive_command = .Backward s) → s ≤ 100 := by
  intro s hcmd
  have hle := reachable_command_speed_le m h
  rcases hcmd with hf | hb
  · rw [hf] at hle; simpa [extractSpeed] using hle
  · rw [hb] at hle; simpa [extractSpeed] using hle

/-- Witness for C5: the state reached by `new` then `drive (Forward 50)`. -/
theorem reachable_speed_bounded_witness :
    Reachable Unit Unit Unit ⟨true, false, 50, .Forward 50⟩ ∧
    (50 : Nat) ≤ 100 := by
  have h0 : Reachable Unit Unit Unit ⟨false, false, 0, .Stop⟩ :=
    Reachable.init true true 7 ⟨none, none, none⟩ ⟨false, false, 0, .Stop⟩ rfl
  have h1 : Reachable Unit Unit Unit ⟨true, false, 50, .Forward 50⟩ :=
    Reachable.step ⟨false, false, 0, .Stop⟩ (.Forward 50) ⟨none, none, none⟩ h0
  exact ⟨h1, reachable_speed_bounded _ h1 50 (Or.inl rfl)⟩

/-- Claim C6: on every reachable state, `current_speed` is a pure
function of the stored command alone, returning +s for `Forward s`, -s
for `Backward s`, and 0 for `Brake` and `Stop`. -/
theorem current_speed_spec (m : MotorState) (h : Reachable A B P m) :
    (∀ m2 : MotorState,
      m2.current_drive_command = m.current_drive_command →
      current_speed m2 = current_speed m) ∧
    (∀ s, m.current_drive_command = .Forward s →
      current_speed m = (s : Int)) ∧
    (∀ s, m.current_drive_command = .Backward s →
      current_speed m = -(s : Int)) ∧
    (m.current_drive_command = .Brake → current_speed m = 0) ∧
    (m.current_drive_command = .Stop → current_speed m = 0) := by
  have hle := reachable_command_speed_le m h
  refine ⟨?_, ?_, ?_, ?_, ?_⟩
  · intro m2 h2; simp [current_speed, h2]
  · intro s hf
    have hs : s ≤ 100 := by rw [hf] at hle; simpa [extractSpeed] using hle
    simp [current_speed, hf, u8AsI8_small s (by omega)]
  · intro s hb
    have hs : s ≤ 100 := by rw [hb] at hle; simpa [extractSpeed] using hle
    simp [current_speed, hb, u8AsI8_small s (by omega)]
  · intro hbr; simp [current_speed, hbr]
  · intro hst; simp [current_speed, hst]

/-- Witness for C6: the reachable `Backward 60` state reads speed -60. -/
theorem current_speed_spec_witness :
    Reachable Unit Unit Unit ⟨false, true, 60, .Backward 60⟩ ∧
    current_speed ⟨false, true, 60, .Backward 60⟩ = -(60 : Int) := by
  have h0 : Reachable Unit Unit Unit ⟨false, false, 0, .Stop⟩ :=
    Reachable.init false true 3 ⟨none, none, none⟩ ⟨false, false, 0, .Stop⟩ rfl
  have h1 : Reachable Unit Unit Unit ⟨false, true, 60, .Backward 60⟩ :=
    Reachable.step ⟨false, false, 0, .Stop⟩ (.Backward 60) ⟨none, none, none⟩ h0
  exact ⟨h1, (current_speed_spec _ h1).2.2.1 60 rfl⟩

/-- Claim C7: `Motor::new` sets the stored command to `Stop` and issues
the electrical pattern for `Stop` (IN1 low, IN2 low, duty 0%, the PWM
output driven as its initial enablement); an immediately constructed
driver reads command `Stop` and speed 0, and construction fails exactly
when one of the writes of the initial `drive(Stop)` fails. -/
theorem new_initial_state (i1 i2 : Bool) (d : Nat)
    (b : DriveBehavior A B P) :
    ((b.in1Res = none ∧ b.in2Res = none ∧ b.pwmRes = none) →
      ((Motor.new i1 i2 d b).1 = .ok ⟨false, false, 0, .Stop⟩ ∧
        (Motor.new i1 i2 d b).2 =
          [.wIn1 false none, .wIn2 false none, .wPwm 0 none])) ∧
    (∀ m, (Motor.new i1 i2 d b).1 = .ok m →
      (m.current_drive_command = .Stop ∧ current_speed m = 0 ∧
        m.in1 = false ∧ m.in2 = false ∧ m.duty = 0)) ∧
    (¬(b.in1Res = none ∧ b.in2Res = none ∧ b.pwmRes = none) →
      ∃ e, (Motor.new i1 i2 d b).1 = .error e) := by
  refine ⟨?_, ?_, ?_⟩
  · rintro ⟨h1, h2, h3⟩
    simp [Motor.new, drive, extractSpeed, pinPattern, h1, h2, h3]
  · intro m hok
    rw [new_ok_state i1 i2 d b m hok]
    simp [current_speed]
  · intro hfail
    cases h1 : b.in1Res <;> cases h2 : b.in2Res <;> cases h3 : b.pwmRes <;>
      simp [h1, h2, h3] at hfail <;>
      simp [Motor.new, drive, extractSpeed, pinPattern, h1, h2, h3]

/-- Witness for C7: an all-successful construction from high pins. -/
theorem new_initial_state_witness :
    ((⟨none, none, none⟩ : DriveBehavior Unit Unit Unit).in1Res = none ∧
      (⟨none, none, none⟩ : DriveBehavior Unit Unit Unit).in2Res = none ∧
      (⟨none, none, none⟩ : DriveBehavior Unit Unit Unit).pwmRes = none) ∧
    (Motor.new true true 9
      (⟨none, none, none⟩ : DriveBehavior Unit Unit Unit)).1 =
      .ok ⟨false, false, 0, .Stop⟩ :=
  ⟨⟨rfl, rfl, rfl⟩,
    ((new_initial_state true true 9 ⟨none, none, none⟩).1 ⟨rfl, rfl, rfl⟩).1⟩

/-- Counterexample to C8 as stated: a `drive` invocation with
`Forward 101` performs zero PWM capability calls, not exactly one. -/
theorem drive_pwm_zero_calls_on_invalid_speed :
    countPwm (drive ⟨false, false, 0, .Stop⟩ (.Forward 101)
      (⟨none, none, none⟩ : DriveBehavior Unit Unit Unit)).events = 0 ∧
    countPwm (drive ⟨false, false, 0, .Stop⟩ (.Forward 101)
      (⟨none, none, none⟩ : DriveBehavior Unit Unit Unit)).events ≠ 1 := by
  decide

/-- Claim C8 (amended): one `drive` invocation calls the duty-cycle
capability at most once; it calls it exactly once — after the two
successful digital writes — precisely when validation passes and both
digital writes succeed, and zero times otherwise. -/
theorem drive_pwm_at_most_once (m : MotorState) (cmd : DriveCommand)
    (b : DriveBehavior A B P) :
    countPwm (drive m cmd b).events ≤ 1 ∧
    ((extractSpeed cmd ≤ 100 ∧ b.in1Res = none ∧ b.in2Res = none) →
      (drive m cmd b).events =
        [.wIn1 (pinPattern cmd).1 none, .wIn2 (pinPattern cmd).2 none,
          .wPwm (extractSpeed cmd) b.pwmRes]) ∧
    ((100 < extractSpeed cmd ∨ b.in1Res ≠ none ∨ b.in2Res ≠ none) →
      countPwm (drive m cmd b).events = 0) := by
  by_cases hs : extractSpeed cmd > 100
  · simp [drive, hs, countPwm, not_le_of_lt hs]
  · cases h1 : b.in1Res <;> cases h2 : b.in2Res <;> cases h3 : b.pwmRes <;>
      simp [drive, hs, h1, h2, h3, countPwm, Nat.le_of_not_lt hs]

/-- Witness for C8 (amended): a fully successful `Brake` call produces
exactly the three writes, the PWM one last. -/
theorem drive_pwm_at_most_once_witness :
    (extractSpeed .Brake ≤ 100 ∧ (none : Option Unit) = none ∧
      (none : Option Unit) = none) ∧
    (drive ⟨false, false, 0, .Stop⟩ .Brake
      (⟨none, none, none⟩ : DriveBehavior Unit Unit Unit)).events =
      [.wIn1 true none, .wIn2 true none, .wPwm 0 none] :=
  ⟨⟨by decide, rfl, rfl⟩,
    (drive_pwm_at_most_once ⟨false, false, 0, .Stop⟩ .Brake
      ⟨none, none, none⟩).2.1 ⟨by decide, rfl, rfl⟩⟩

/-- Claim C9: `enable_standby` and `disable_standby` write only the
standby pin (low to engage, high to disengage); neither call changes
either motor's state (pins, duty, or stored command). -/
theorem standby_frame (c : Tb6612fngState) (res : Option S) :
    ((enable_standby c res : StandbyResult A B P S).state.motor_a =
        c.motor_a ∧
      (enable_standby c res : StandbyResult A B P S).state.motor_b =
        c.motor_b ∧
      (enable_standby c res : StandbyResult A B P S).events =
        [.wStandby false res] ∧
      (res = none →
        (enable_standby c res : StandbyResult A B P S).state.standby =
          false)) ∧
    ((disable_standby c res : StandbyResult A B P S).state.motor_a =
        c.motor_a ∧
      (disable_standby c res : StandbyResult A B P S).state.motor_b =
        c.motor_b ∧
      (disable_standby c res : StandbyResult A B P S).events =
        [.wStandby true res] ∧
      (res = none →
        (disable_standby c res : StandbyResult A B P S).state.standby =
          true)) := by
  cases res <;> simp [enable_standby, disable_standby]

/-- Witness for C9: a successful `enable_standby` drives the pin low. -/
theorem standby_frame_witness :
    ((none : Option Unit) = none) ∧
    (enable_standby ⟨⟨false, false, 0, .Stop⟩, ⟨false, false, 0, .Stop⟩, true⟩
      (none : Option Unit) : StandbyResult Unit Unit Unit Unit).state.standby
      = false :=
  ⟨rfl,
    (standby_frame
      ⟨⟨false, false, 0, .Stop⟩, ⟨false, false, 0, .Stop⟩, true⟩
      (none : Option Unit)).1.2.2.2 rfl⟩

/-- Claim C10: in every reachable state the `u8`-to-`i8` cast inside
`current_speed` cannot wrap: the reinterpretation of the stored speed is
the identity, the returned value lies in [-100, 100], and its magnitude
equals the stored speed exactly. -/
theorem current_speed_no_wrap (m : MotorState) (h : Reachable A B P m) :
    (-100 ≤ current_speed m ∧ current_speed m ≤ 100) ∧
    (∀ s, m.current_drive_command = .Forward s →
      u8AsI8 s = (s : Int) ∧ current_speed m = (s : Int)) ∧
    (∀ s, m.current_drive_command = .Backward s →
      u8AsI8 s = (s : Int) ∧ current_speed m = -(s : Int)) := by
  have hle := reachable_command_speed_le m h
  cases hcmd : m.current_drive_command with
  | Forward s =>
      have hs : s ≤ 100 := by rw [hcmd] at hle; simpa [extractSpeed] using hle
      have hcast := u8AsI8_small s (by omega)
      refine ⟨⟨?_, ?_⟩, ?_, ?_⟩
      · simp [current_speed, hcmd, hcast]; omega
      · simp [current_speed, hcmd, hcast]; omega
      · intro t ht
        injection ht with hst
        subst hst
        exact ⟨hcast, by simp [current_speed, hcmd, hcast]⟩
      · intro t ht
        simp at ht
  | Backward s =>
      have hs : s ≤ 100 := by rw [hcmd] at hle; simpa [extractSpeed] using hle
      have hcast := u8AsI8_small s (by omega)
      refine ⟨⟨?_, ?_⟩, ?_, ?_⟩
      · simp [current_speed, hcmd, hcast]; omega
      · simp [current_speed, hcmd, hcast]; omega
      · intro t ht
        simp at ht
      · intro t ht
        injection ht with hst
        subst hst
        exact ⟨hcast, by simp [current_speed, hcmd, hcast]⟩
  | Brake =>
      refine ⟨⟨?_, ?_⟩, ?_, ?_⟩
      · simp [current_speed, hcmd]
      · simp [current_speed, hcmd]
      · intro t ht; simp at ht
      · intro t ht; simp at ht
  | Stop =>
      refine ⟨⟨?_, ?_⟩, ?_, ?_⟩
      · simp [current_speed, hcmd]
      · simp [current_speed, hcmd]
      · intro t ht; simp at ht
      · intro t ht; simp at ht

/-- Witness for C10: the reachable `Forward 50` state stays in bounds. -/
theorem current_speed_no_wrap_witness :
    Reachable Unit Unit Unit ⟨true, false, 50, .Forward 50⟩ ∧
    (-100 ≤ current_speed ⟨true, false, 50, .Forward 50⟩ ∧
      current_speed ⟨true, false, 50, .Forward 50⟩ ≤ 100) := by
  have h0 : Reachable Unit Unit Unit ⟨false, false, 0, .Stop⟩ :=
    Reachable.init false false 1 ⟨none, none, none⟩ ⟨false, false, 0, .Stop⟩
      rfl
  have h1 : Reachable Unit Unit Unit ⟨true, false, 50, .Forward 50⟩ :=
    Reachable.step ⟨false, false, 0, .Stop⟩ (.Forward 50) ⟨none, none, none⟩
      h0
  exact ⟨h1, (current_speed_no_wrap _ h1).1⟩

end Tb6612
